import Mathlib

/-!
Shallow embedding of the Traffic-Flow traffic-generation engine.

Sources embedded here:
- `src/app/src/App.tsx` — the scheduler tick `runTrafficEngine`, `getWafDelay`,
  `COUNTRY_CODES`, `formatUrlToTitle`, the engine start/stop effect;
- `src/app/src/lib/ReferrerManager.ts` — the search-engine catalog,
  `generateOrganicReferrer`, `getGASourceMedium`;
- `src/unnamed/part_001` (BehaviorSimulator) — `generateScrollPattern`.

JavaScript `Math.random()` draws are modelled as rational parameters in
[0, 1).  `Math.floor(Math.random() * n)` becomes `jsFloorIdx r n`.
Machine floating point is modelled by exact rationals; every numeric
constant in the source is exactly representable, and no claim depends on
rounding.  `new URL(...)` (which throws on a malformed or undefined input)
is modelled by a simplified WHATWG parse returning `Option`.
-/

namespace TrafficFlow

/-- Model of the JavaScript idiom `Math.floor(r * n)` used to pick a random
index: `r` stands for a `Math.random()` draw.  (`Rat.floor` is used rather
than the `⌊⌋` notation so the definition evaluates by kernel reduction.) -/
def jsFloorIdx (r : ℚ) (n : ℕ) : ℕ := (Rat.floor (r * (n : ℚ))).toNat

/-- The three WAF evasion modes of `App.tsx` (`type WAFMode`). -/
inductive WAFMode where
  | Standard
  | Stealth
  | Ghost
deriving DecidableEq, Repr

/-- Display name of a WAF mode, as interpolated into the log message. -/
def wafName : WAFMode → String
  | .Standard => "Standard"
  | .Stealth => "Stealth"
  | .Ghost => "Ghost"

/-- `getWafDelay` from `App.tsx` lines 645-656.  The single `Math.random()`
draw of the Stealth and Ghost branches is the parameter `r`.  The JS
`default` branch returns 1500 and is unreachable for the three-valued
enumeration. -/
def getWafDelay (mode : WAFMode) (r : ℚ) : ℚ :=
  match mode with
  | .Standard => 1500
  | .Stealth => 2000 + r * 1000
  | .Ghost => 2500 + r * 2000

/-! ## ReferrerManager (`src/app/src/lib/ReferrerManager.ts`) -/

/-- `interface SearchEngine` of ReferrerManager.ts. -/
structure SearchEngine where
  name : String
  baseUrl : String
  queryParam : String
  domains : List String
deriving DecidableEq, Repr

/-- First catalog entry (`google`); `generateOrganicReferrer` falls back to
`this.engines[0]`, which is this entry. -/
def googleEngine : SearchEngine :=
  ⟨"google", "https://www.google.com/search", "q",
    ["google.com", "google.de", "google.co.jp", "google.fr", "google.it"]⟩

/-- The static `engines` catalog of ReferrerManager.ts, verbatim. -/
def engines : List SearchEngine :=
  [googleEngine,
   ⟨"bing", "https://www.bing.com/search", "q", ["bing.com"]⟩,
   ⟨"yahoo", "https://search.yahoo.com/search", "p", ["yahoo.com"]⟩,
   ⟨"duckduckgo", "https://duckduckgo.com/", "q", ["duckduckgo.com"]⟩]

/-- `this.engines.find(e => e.name === engineName) || this.engines[0]`. -/
def resolveEngine (engineName : String) : SearchEngine :=
  (engines.find? (fun e => e.name == engineName)).getD googleEngine

/-- Uppercase hex digit for a value below 16. -/
def hexChar (n : ℕ) : Char :=
  if n < 10 then Char.ofNat (48 + n) else Char.ofNat (55 + n)

/-- Percent-encoding of one UTF-8 byte, `%XX` with uppercase hex. -/
def byteHex (b : UInt8) : String :=
  ⟨['%', hexChar (b.toNat / 16), hexChar (b.toNat % 16)]⟩

/-- Serialization of one character under `URLSearchParams.toString()`
(the application/x-www-form-urlencoded serializer): space becomes `+`,
ASCII alphanumerics and `*-._` pass through, everything else is
percent-encoded per UTF-8 byte. -/
def formEncodeChar (c : Char) : String :=
  if c == ' ' then "+"
  else if c.isAlphanum || c == '*' || c == '-' || c == '.' || c == '_' then
    String.singleton c
  else
    String.join (((String.singleton c).toUTF8.toList).map byteHex)

/-- `URLSearchParams` serialization of a parameter value. -/
def formEncode (s : String) : String :=
  String.join (s.toList.map formEncodeChar)

/-- `generateOrganicReferrer` of ReferrerManager.ts lines 44-59.  `r` is the
`Math.random()` draw selecting the domain.  An out-of-range domain index
would be JS `undefined`, which a template literal renders as the string
`undefined`; this cannot happen for a valid draw. -/
def generateOrganicReferrer (keyword : String) (engineName : String) (r : ℚ) : String :=
  let engine := resolveEngine engineName
  let domain := (engine.domains.get? (jsFloorIdx r engine.domains.length)).getD ("undefined")
  let ps := engine.queryParam ++ "=" ++ formEncode keyword
  let ps :=
    if engine.name == "google" then
      ps ++ "&oq=" ++ formEncode keyword ++ "&sourceid=chrome&ie=UTF-8"
    else ps
  "https://www." ++ domain ++ "/search?" ++ ps

/-- The `{source, medium}` pair of `getGASourceMedium`. -/
structure SourceMedium where
  source : String
  medium : String
deriving DecidableEq, Repr

/-- `getGASourceMedium` of ReferrerManager.ts lines 64-69. -/
def getGASourceMedium (engineName : String) : SourceMedium :=
  ⟨engineName, "organic"⟩

/-! ## A simplified model of `new URL(...)`

`new URL(url)` throws a `TypeError` on input without a valid scheme or
host (in particular on `undefined`).  The engine only reads `.hostname`
and `.pathname`, so the model parses `scheme://host[:port][/path][?q][#f]`
and returns `none` where the constructor would throw. -/

/-- Split a character list at the first occurrence of `://`, returning the
scheme part and the remainder. -/
def findSchemeSplit : List Char → Option (List Char × List Char)
  | [] => none
  | ':' :: '/' :: '/' :: rest => some ([], rest)
  | c :: rest => (findSchemeSplit rest).map (fun p => (c :: p.1, p.2))

/-- Hostname of `new URL(url)`, `none` where the constructor throws. -/
def jsURLHostname (url : String) : Option String :=
  match findSchemeSplit url.data with
  | some (scheme, rest) =>
    if scheme.isEmpty then none
    else
      let host := rest.takeWhile (fun c => !(c == '/' || c == '?' || c == '#' || c == ':'))
      if host.isEmpty then none else some (String.mk host)
  | none => none

/-- Pathname of `new URL(url)` for a url whose hostname parses; the empty
path is normalized to `/`. -/
def jsURLPathname (url : String) : String :=
  match findSchemeSplit url.data with
  | some (_, rest) =>
    let afterHost := rest.dropWhile (fun c => !(c == '/' || c == '?' || c == '#'))
    let path := afterHost.takeWhile (fun c => !(c == '?' || c == '#'))
    if path.isEmpty then "/" else String.mk path
  | none => "/"

/-- `formatUrlToTitle` of App.tsx lines 94-101: hostname plus a truncated
pathname, falling back to a truncation of the raw string when `new URL`
throws. -/
def formatUrlToTitle (url : String) : String :=
  match jsURLHostname url with
  | some h =>
    let p := jsURLPathname url
    h ++ (if p.length > 1 then p.take 15 ++ "..." else "")
  | none => url.take 30 ++ "..."

/-! ## Engine data model (`App.tsx` interfaces) -/

/-- Campaign lifecycle status (`status: 'active' | 'paused'`). -/
inductive CStatus where
  | active
  | paused
deriving DecidableEq, Repr

/-- `interface Campaign` of App.tsx, restricted to the fields the engine
tick reads or writes.  `targeting.region` is flattened to `region`;
`stats.hits` is flattened to `hits`.  `ga4Id: string | null` and the
optional `trafficPattern` become `Option String`. -/
structure Campaign where
  id : String
  name : String
  status : CStatus
  trafficType : String
  urls : List String
  region : String
  countryCode : String
  ga4Id : Option String
  hits : ℕ
  trafficPattern : Option String
deriving DecidableEq, Repr

/-- Log entry type tag (`type?: 'work' | 'error'`). -/
inductive LogType where
  | work
  | error
deriving DecidableEq, Repr

/-- `interface LogEntry`, without the environmental `id`/`timestamp`. -/
structure LogEntry where
  message : String
  type : LogType
deriving DecidableEq, Repr

/-- `interface GA4Event` with its `params` bag flattened.  `eventName` is
`Option` because the JS array lookup would yield `undefined` out of range;
`sessionRand` carries the `Math.random()` draw from which the source
derives the base-36 `session_id` tag. -/
structure GA4Event where
  eventName : Option String
  campaignName : String
  page_location : String
  page_title : String
  country : String
  traffic_type : String
  sessionRand : ℚ
deriving DecidableEq, Repr

/-- `interface CurrentJob`.  `url` is `Option` because the selected url is
JS `undefined` when the campaign has no urls. -/
structure CurrentJob where
  status : String
  campaign : String
  url : Option String
  flag : String
deriving DecidableEq, Repr

/-- The engine-visible React state: campaign list, log, simulated GA4
event buffer, current-job projection, the running flag
(`isEngineRunningRef`), the pending `setTimeout` delay (`engineTimerRef`,
`none` when no tick is scheduled), and the user credits counter. -/
structure EngineState where
  running : Bool
  campaigns : List Campaign
  logs : List LogEntry
  ga4Events : List GA4Event
  currentJob : Option CurrentJob
  timer : Option ℚ
  credits : ℕ
deriving DecidableEq, Repr

/-- Outcome of one invocation of the tick callback: the state after all
issued React updates, and whether the callback threw.  Updates already
queued before a throw are still applied by React, so the partial state is
kept. -/
structure TickResult where
  state : EngineState
  threw : Bool
deriving DecidableEq, Repr

/-- The `Math.random()` draws a single tick can consume, in source order:
campaign index, url index, country index, GA4 event-name index, session
tag, and the delay draw inside `getWafDelay`. -/
structure Rand where
  rCampaign : ℚ
  rUrl : ℚ
  rCountry : ℚ
  rEvent : ℚ
  rSession : ℚ
  rDelay : ℚ
deriving DecidableEq, Repr

/-- All six draws are genuine `Math.random()` results in `[0, 1)`. -/
def Rand.Valid (r : Rand) : Prop :=
  (0 ≤ r.rCampaign ∧ r.rCampaign < 1) ∧ (0 ≤ r.rUrl ∧ r.rUrl < 1) ∧
  (0 ≤ r.rCountry ∧ r.rCountry < 1) ∧ (0 ≤ r.rEvent ∧ r.rEvent < 1) ∧
  (0 ≤ r.rSession ∧ r.rSession < 1) ∧ (0 ≤ r.rDelay ∧ r.rDelay < 1)

instance (r : Rand) : Decidable r.Valid := by
  unfold Rand.Valid
  infer_instance

/-! ## The scheduler tick (`runTrafficEngine`, App.tsx lines 358-414) -/

/-- The `COUNTRY_CODES` table of App.tsx lines 72-79, verbatim; `none` for
a region outside the table (JS `undefined`). -/
def COUNTRY_CODES (region : String) : Option (List String) :=
  if region == "Europe" then
    some ["DE", "FR", "GB", "IT", "ES", "NL", "BE", "CH", "SE", "NO"]
  else if region == "North America" then some ["US", "CA", "MX"]
  else if region == "South America" then some ["BR", "AR", "CL", "CO", "PE"]
  else if region == "Asia" then
    some ["JP", "IN", "KR", "SG", "HK", "TH", "VN", "ID", "AE", "SA"]
  else if region == "Africa" then some ["MA", "ZA", "EG", "NG", "KE"]
  else if region == "Oceania" then some ["AU", "NZ"]
  else none

/-- `COUNTRY_CODES[region]?.[Math.floor(Math.random() * ...)] || 'US'`:
the optional chain short-circuits to `US` for an unknown region (the index
draw is then not consumed, which is immaterial here since draws are
positional record fields), and `|| 'US'` also covers an out-of-range
element. -/
def pickCountry (region : String) (r : ℚ) : String :=
  match COUNTRY_CODES region with
  | none => "US"
  | some l => (l.get? (jsFloorIdx r l.length)).getD ("US")

/-- `campaignsRef.current.filter(c => c.status === 'active')`. -/
def activeOf (s : EngineState) : List Campaign :=
  s.campaigns.filter (fun c => c.status == CStatus.active)

/-- `activeCampaigns[Math.floor(Math.random() * activeCampaigns.length)]`:
the campaign the tick selects, `none` when the active list is empty. -/
def selectedJob (r : Rand) (s : EngineState) : Option Campaign :=
  (activeOf s).get? (jsFloorIdx r.rCampaign (activeOf s).length)

/-- The per-campaign update of `setCampaigns`: bump `stats.hits` of every
campaign whose id matches the selected job, leave the rest untouched
(`c.id === job.id ? {...c, stats: {hits: (c.stats?.hits || 0) + 1}} : c`). -/
def bumpHits (jobId : String) (c : Campaign) : Campaign :=
  if c.id == jobId then { c with hits := c.hits + 1 } else c

/-- The fixed GA4 event-name catalog of App.tsx line 393. -/
def eventNames : List String :=
  ["page_view", "session_start", "user_engagement", "scroll"]

/-- The `work` log message of App.tsx lines 382-387 (ids and timestamps
are environmental and omitted). -/
def logMessage (host : String) (job : Campaign) (country : String)
    (mode : WAFMode) : String :=
  "HIT: " ++ host ++ " [" ++ job.trafficType ++ "] GEO:" ++ country ++
    " | GA4: " ++ job.ga4Id.getD ("N/A") ++ " | WAF: " ++ wafName mode

/-- The simulated GA4 event record built at App.tsx lines 392-407. -/
def mkGa4Event (r : Rand) (job : Campaign) (url : String)
    (country : String) : GA4Event :=
  { eventName := eventNames.get? (jsFloorIdx r.rEvent eventNames.length)
    campaignName := job.name
    page_location := url
    page_title := formatUrlToTitle url
    country := country
    traffic_type := job.trafficType
    sessionRand := r.rSession }

/-- The tick body from selection onward (App.tsx lines 368-413), for an
already selected `job`.  Operation order follows the source: set
`currentJob`, bump the hit counter, build the log entry (where
`new URL(url).hostname` throws on a missing or malformed url — updates
already issued before the throw stay applied, the rest of the callback,
including the re-arm, is skipped), prepend the log keeping 150 entries,
decrement credits with a floor of 0, append the GA4 event (buffer of 100)
when the campaign has a ga4Id, and finally schedule the next tick at
`getWafDelay`. -/
def tickHit (mode : WAFMode) (r : Rand) (s : EngineState) (job : Campaign) :
    TickResult :=
  let urlOpt := job.urls.get? (jsFloorIdx r.rUrl job.urls.length)
  let country := pickCountry job.region r.rCountry
  let s1 := { s with currentJob := some ⟨"SENDING", job.name, urlOpt, country⟩ }
  let s2 := { s1 with campaigns := s1.campaigns.map (bumpHits job.id) }
  match urlOpt with
  | none => ⟨s2, true⟩
  | some url =>
    match jsURLHostname url with
    | none => ⟨s2, true⟩
    | some host =>
      let entry : LogEntry := ⟨logMessage host job country mode, LogType.work⟩
      let s3 := { s2 with logs := entry :: s2.logs.take 149 }
      let s4 := { s3 with credits := s3.credits - 1 }
      let s5 :=
        match job.ga4Id with
        | none => s4
        | some _ =>
          { s4 with ga4Events := mkGa4Event r job url country :: s4.ga4Events.take 99 }
      ⟨{ s5 with timer := some (getWafDelay mode r.rDelay) }, false⟩

/-- `runTrafficEngine` (App.tsx lines 358-414): return unchanged when not
running; schedule an idle 2000ms re-poll when no campaign is active;
otherwise run the hit body on the selected campaign.  The `none` selection
branch is unreachable for a valid draw. -/
def runTrafficEngine (mode : WAFMode) (r : Rand) (s : EngineState) :
    TickResult :=
  if s.running = false then ⟨s, false⟩
  else if (activeOf s).length = 0 then ⟨{ s with timer := some 2000 }, false⟩
  else
    match selectedJob r s with
    | none => ⟨s, true⟩
    | some job => tickHit mode r s job

/-- The stop command together with the start/stop effect of App.tsx lines
416-424: `setIsEngineRunning(false)` plus
`clearTimeout(engineTimerRef.current); setCurrentJob(null)`. -/
def stopEngine (s : EngineState) : EngineState :=
  { s with running := false, timer := none, currentJob := none }

/-! ## BehaviorSimulator.generateScrollPattern (`src/unnamed/part_001`,
lines 59-81)

The while loop consumes a variable number of `Math.random()` draws, so the
draws are a stream `f : ℕ → ℚ` consumed at a running cursor `k`: one draw
for the scroll distance each iteration, then (only when the advanced
position is still below `pageHeight`) one draw for the 20% back-scroll
chance and, when it triggers, one for the back-scroll distance. -/

/-- The loop body of `generateScrollPattern`: from `current`, repeatedly
advance by `Math.random() * 300 + 100`; while still below `pageHeight`
push the position and, with probability 0.2, also push a back-scroll point
`position - (Math.random() * 100 + 50)`.  Terminates because every
iteration advances by at least 100. -/
def scrollAux (f : ℕ → ℚ) (hf : ∀ n, 0 ≤ f n ∧ f n < 1) (pageHeight : ℚ)
    (k : ℕ) (current : ℚ) : List ℚ :=
  if h : current < pageHeight then
    let c := current + (f k * 300 + 100)
    if hc : c < pageHeight then
      if f (k + 1) < 1 / 5 then
        c :: (c - (f (k + 2) * 100 + 50)) :: scrollAux f hf pageHeight (k + 3) c
      else
        c :: scrollAux f hf pageHeight (k + 2) c
    else []
  else []
termination_by (⌈pageHeight - current⌉).toNat
decreasing_by
  all_goals
    have h1 : 0 ≤ f k := (hf k).1
    have hstep : pageHeight - (current + (f k * 300 + 100)) ≤
        (pageHeight - current) - 1 := by nlinarith
    have hkey : ⌈pageHeight - (current + (f k * 300 + 100))⌉ <
        ⌈pageHeight - current⌉ := by
      have h2 := Int.ceil_mono hstep
      rw [Int.ceil_sub_one] at h2
      omega
    have hpos : 0 < ⌈pageHeight - current⌉ := Int.ceil_pos.mpr (by linarith)
    simp only [Int.toNat_lt_toNat hpos]
    exact lt_of_le_of_lt (Int.ceil_mono (by nlinarith)) hkey

/-- `generateScrollPattern`: start at `[0]`, run the loop, terminate by
appending `pageHeight`. -/
def generateScrollPattern (f : ℕ → ℚ) (hf : ∀ n, 0 ≤ f n ∧ f n < 1)
    (pageHeight : ℚ) : List ℚ :=
  0 :: (scrollAux f hf pageHeight 0 0 ++ [pageHeight])

/-! ## Derived quantities and concrete fixtures -/

/-- Total `stats.hits` over the campaigns carrying a given id (with unique
ids, the counter of that one campaign). -/
def hitsOf (cid : String) (s : EngineState) : ℕ :=
  ((s.campaigns.filter (fun c => c.id == cid)).map (fun c => c.hits)).sum

/-- `AttribSeq mode cid s N u`: `u` results from `s` by `N` consecutive
ticks, each fired while the engine is running and each selecting a
campaign with id `cid` (a tick "attributing a hit" to that campaign). -/
inductive AttribSeq (mode : WAFMode) (cid : String) (s : EngineState) :
    ℕ → EngineState → Prop where
  | zero : AttribSeq mode cid s 0 s
  | succ (n : ℕ) (t : EngineState) (r : Rand) (job : Campaign)
      (hprev : AttribSeq mode cid s n t) (hrun : t.running = true)
      (hsel : selectedJob r t = some job) (hid : job.id = cid) :
      AttribSeq mode cid s (n + 1) (runTrafficEngine mode r t).state

/-- An all-zero tuple of `Math.random()` draws (every draw in `[0, 1)`). -/
def rZero : Rand := ⟨0, 0, 0, 0, 0, 0⟩

/-- A well-formed active campaign carrying the `Pulse` traffic pattern. -/
def pulseCampaign : Campaign :=
  ⟨"camp-1", "Premium SEO Boost", CStatus.active, "Organic Search (Google/Bing)",
    ["https://example.com/landing"], "Europe", "DE", none, 124, some "Pulse"⟩

/-- A running engine whose only campaign is `pulseCampaign`. -/
def pulseState : EngineState := ⟨true, [pulseCampaign], [], [], none, none, 500⟩

/-- A campaign that is `active` yet has an empty `urls` list (reachable by
importing a campaign backup, which is stored unvalidated). -/
def emptyUrlsCampaign : Campaign :=
  ⟨"camp-bad", "Broken Import", CStatus.active, "Organic Search (Google/Bing)",
    [], "Europe", "DE", none, 0, none⟩

/-- A running engine whose only campaign is `emptyUrlsCampaign`. -/
def emptyUrlsState : EngineState := ⟨true, [emptyUrlsCampaign], [], [], none, none, 500⟩

/-- A running engine with a single paused campaign: its active set is
empty. -/
def idleState : EngineState :=
  ⟨true, [⟨"camp-2", "Local Business Traffic", CStatus.paused,
    "Local SEO (Maps/GMB)", ["https://localbiz.example.com"], "North America",
    "US", some "G-DEMO789012", 87, none⟩], [], [], none, none, 500⟩

/-- An active GA4-linked campaign with one well-formed url. -/
def ga4Campaign : Campaign :=
  ⟨"camp-9", "Premium SEO Boost", CStatus.active,
    "Organic Search (Google/Bing)", ["https://example.com/landing"], "Europe",
    "DE", some "G-DEMO123456", 124, none⟩

/-- A running engine with one active GA4-linked campaign, used to exercise
a full hit tick concretely. -/
def ga4State : EngineState := ⟨true, [ga4Campaign], [], [], none, none, 500⟩

/-- The constant-zero draw stream, valid for `generateScrollPattern`. -/
def zeroStream : ℕ → ℚ := fun _ => 0

/-- A draw stream forcing one forward step of exactly 100, a back-scroll
of 140, and then an overshoot: draw 2 is 9/10, all others 0. -/
def cexStream : ℕ → ℚ := fun n => if n = 2 then 9 / 10 else 0

/-! ## Helper lemmas -/

/-- Every value of `zeroStream` lies in `[0, 1)`. -/
theorem zeroStream_valid : ∀ n, 0 ≤ zeroStream n ∧ zeroStream n < 1 := by
  intro n
  unfold zeroStream
  norm_num

/-- Every value of `cexStream` lies in `[0, 1)`. -/
theorem cexStream_valid : ∀ n, 0 ≤ cexStream n ∧ cexStream n < 1 := by
  intro n
  unfold cexStream
  split <;> norm_num

/-- For a genuine `Math.random()` draw (`0 ≤ r < 1`) and a nonempty array,
the picked index is in range. -/
theorem jsFloorIdx_lt {r : ℚ} {n : ℕ} (h1 : r < 1) (hn : 0 < n) :
    jsFloorIdx r n < n := by
  have hn' : (0 : ℚ) < (n : ℚ) := by exact_mod_cast hn
  have hlt : r * (n : ℚ) < ((n : ℤ) : ℚ) := by
    push_cast
    calc r * (n : ℚ) < 1 * (n : ℚ) := mul_lt_mul_of_pos_right h1 hn'
      _ = (n : ℚ) := one_mul _
  have hbridge : Rat.floor (r * (n : ℚ)) = ⌊r * (n : ℚ)⌋ := by
    rw [Rat.floor_def, Rat.floor_def']
  have hfl : ⌊r * (n : ℚ)⌋ < (n : ℤ) := Int.floor_lt.mpr hlt
  unfold jsFloorIdx
  omega

/-- Index selection at draw 0 picks index 0. -/
theorem jsFloorIdx_zero (n : ℕ) : jsFloorIdx 0 n = 0 := by
  unfold jsFloorIdx
  rw [zero_mul]
  rfl

/-- `bumpHits` never changes a campaign id. -/
theorem bumpHits_id (jobId : String) (c : Campaign) :
    (bumpHits jobId c).id = c.id := by
  unfold bumpHits
  split <;> rfl

/-- A selected job is one of the campaigns and is active. -/
theorem selectedJob_mem {r : Rand} {s : EngineState} {job : Campaign}
    (hsel : selectedJob r s = some job) :
    job ∈ s.campaigns ∧ job.status = CStatus.active := by
  unfold selectedJob at hsel
  have hmem : job ∈ activeOf s := List.get?_mem hsel
  unfold activeOf at hmem
  rw [List.mem_filter] at hmem
  refine ⟨hmem.1, ?_⟩
  have := hmem.2
  simpa using this

/-- A successful selection means the active list is nonempty. -/
theorem selectedJob_ne_empty {r : Rand} {s : EngineState} {job : Campaign}
    (hsel : selectedJob r s = some job) : (activeOf s).length ≠ 0 := by
  unfold selectedJob at hsel
  have := (List.get?_eq_some.mp hsel).1
  omega

/-- While running, a tick with a successful selection runs the hit body. -/
theorem run_eq_tickHit {mode : WAFMode} {r : Rand} {s : EngineState}
    {job : Campaign} (hrun : s.running = true)
    (hsel : selectedJob r s = some job) :
    runTrafficEngine mode r s = tickHit mode r s job := by
  unfold runTrafficEngine
  rw [hrun]
  simp only [Bool.true_eq_false, if_false]
  rw [if_neg (selectedJob_ne_empty hsel), hsel]

/-- The hit body always maps `bumpHits` of the selected id over the
campaign list, whether or not the log construction throws. -/
theorem tickHit_campaigns (mode : WAFMode) (r : Rand) (s : EngineState)
    (job : Campaign) :
    (tickHit mode r s job).state.campaigns = s.campaigns.map (bumpHits job.id) := by
  unfold tickHit
  cases hu : s.campaigns with
  | nil =>
    simp only [hu]
    split <;> (try split) <;> (try split) <;> rfl
  | cons a l =>
    simp only [hu]
    split <;> (try split) <;> (try split) <;> rfl

/-- A tick never changes the multiset of campaign ids, in order. -/
theorem run_ids (mode : WAFMode) (r : Rand) (s : EngineState) :
    (runTrafficEngine mode r s).state.campaigns.map (fun c => c.id) =
      s.campaigns.map (fun c => c.id) := by
  unfold runTrafficEngine
  split
  · rfl
  · split
    · rfl
    · split
      · rfl
      · next job _ =>
        rw [tickHit_campaigns, List.map_map]
        exact List.map_congr_left (fun c _ => bumpHits_id job.id c)

/-- Bumping campaigns with id `cid` raises the summed hit count over id
`cid` by the number of campaigns carrying that id. -/
theorem sum_hits_map_bump_self (cid : String) (l : List Campaign) :
    (((l.map (bumpHits cid)).filter (fun c => c.id == cid)).map
        (fun c => c.hits)).sum =
      ((l.filter (fun c => c.id == cid)).map (fun c => c.hits)).sum +
        l.countP (fun c => c.id == cid) := by
  induction l with
  | nil => rfl
  | cons a l ih =>
    by_cases h : a.id = cid
    · have hb : (a.id == cid) = true := by simpa using h
      have hb2 : ((bumpHits cid a).id == cid) = true := by
        rw [bumpHits_id]; exact hb
      have hbump : bumpHits cid a = { a with hits := a.hits + 1 } := by
        unfold bumpHits
        rw [if_pos hb]
      simp only [List.map_cons, List.filter_cons, hb, hb2, if_true,
        List.countP_cons, List.map_cons, List.sum_cons, hbump, ih]
      omega
    · have hb : (a.id == cid) = false := by simpa using h
      have hb2 : ((bumpHits cid a).id == cid) = false := by
        rw [bumpHits_id]; exact hb
      simp only [List.map_cons, List.filter_cons, hb, hb2, Bool.false_eq_true,
        if_false, List.countP_cons, ih]
      omega

/-- Bumping campaigns with id `cid` leaves the campaigns filtered by any
other id untouched. -/
theorem filter_map_bump_other (cid cid2 : String) (l : List Campaign)
    (h : cid2 ≠ cid) :
    (l.map (bumpHits cid)).filter (fun c => c.id == cid2) =
      l.filter (fun c => c.id == cid2) := by
  induction l with
  | nil => rfl
  | cons a l ih =>
    by_cases ha : a.id = cid
    · have hne : ¬ (cid = cid2) := fun hc => h hc.symm
      have hb : ((bumpHits cid a).id == cid2) = false := by
        rw [bumpHits_id]
        simp [ha, hne]
      have hb2 : (a.id == cid2) = false := by
        simp [ha, hne]
      simp only [List.map_cons, List.filter_cons, hb, hb2, Bool.false_eq_true,
        if_false, ih]
    · have hbump : bumpHits cid a = a := by
        unfold bumpHits
        rw [if_neg (by simpa using ha)]
      simp only [List.map_cons, List.filter_cons, hbump, ih]

/-- With unique campaign ids, exactly one campaign carries the id of a
campaign present in the list. -/
theorem countP_id_eq_one {l : List Campaign} {job : Campaign}
    (hnd : (l.map (fun c => c.id)).Nodup) (hmem : job ∈ l) :
    l.countP (fun c => c.id == job.id) = 1 := by
  have h1 : (l.map (fun c => c.id)).count job.id = 1 :=
    List.count_eq_one_of_mem hnd (List.mem_map_of_mem _ hmem)
  rw [List.count_eq_countP, List.countP_map] at h1
  simpa using h1

/-- A non-throwing hit body schedules the next tick at exactly the
EvasionMode base delay, independent of the campaign. -/
theorem tickHit_timer_of_ok {mode : WAFMode} {r : Rand} {s : EngineState}
    {job : Campaign} (hok : (tickHit mode r s job).threw = false) :
    (tickHit mode r s job).state.timer = some (getWafDelay mode r.rDelay) := by
  cases hu : job.urls.get? (jsFloorIdx r.rUrl job.urls.length) with
  | none =>
    exfalso
    simp only [List.get?_eq_getElem?] at hu
    have hthrew : (tickHit mode r s job).threw = true := by simp [tickHit, hu]
    rw [hthrew] at hok
    exact Bool.noConfusion hok
  | some url =>
    simp only [List.get?_eq_getElem?] at hu
    cases hh : jsURLHostname url with
    | none =>
      exfalso
      have hthrew : (tickHit mode r s job).threw = true := by
        simp [tickHit, hu, hh]
      rw [hthrew] at hok
      exact Bool.noConfusion hok
    | some host =>
      cases hg : job.ga4Id <;> simp [tickHit, hu, hh, hg]

/-- The hit body leaves the analytics buffer unchanged (throw, or no
ga4Id) or prepends one event to the 99 most recent prior events. -/
theorem tickHit_ga4Events (mode : WAFMode) (r : Rand) (s : EngineState)
    (job : Campaign) :
    (tickHit mode r s job).state.ga4Events = s.ga4Events ∨
      (job.ga4Id ≠ none ∧ ∃ ev,
        (tickHit mode r s job).state.ga4Events = ev :: s.ga4Events.take 99) := by
  cases hu : job.urls.get? (jsFloorIdx r.rUrl job.urls.length) with
  | none =>
    left
    simp only [List.get?_eq_getElem?] at hu
    simp [tickHit, hu]
  | some url =>
    simp only [List.get?_eq_getElem?] at hu
    cases hh : jsURLHostname url with
    | none => left; simp [tickHit, hu, hh]
    | some host =>
      cases hg : job.ga4Id with
      | none => left; simp [tickHit, hu, hh, hg]
      | some g =>
        right
        refine ⟨by simp [hg], mkGa4Event r job url (pickCountry job.region r.rCountry), ?_⟩
        simp [tickHit, hu, hh, hg]

/-- The campaign id list is invariant along an attributed tick sequence. -/
theorem attribSeq_ids {mode : WAFMode} {cid : String} {s : EngineState}
    {N : ℕ} {u : EngineState} (h : AttribSeq mode cid s N u) :
    u.campaigns.map (fun c => c.id) = s.campaigns.map (fun c => c.id) := by
  induction h with
  | zero => rfl
  | succ n t r job hprev hrun hsel hid ih => rw [run_ids]; exact ih

/-- One attributed tick raises the selected id total by exactly 1 and
leaves every other id total unchanged. -/
theorem step_hitsOf {mode : WAFMode} {r : Rand} {t : EngineState}
    {job : Campaign} (hrun : t.running = true)
    (hsel : selectedJob r t = some job)
    (hnd : (t.campaigns.map (fun c => c.id)).Nodup) :
    hitsOf job.id (runTrafficEngine mode r t).state = hitsOf job.id t + 1 ∧
    ∀ cid2, cid2 ≠ job.id →
      hitsOf cid2 (runTrafficEngine mode r t).state = hitsOf cid2 t := by
  have hc : (runTrafficEngine mode r t).state.campaigns =
      t.campaigns.map (bumpHits job.id) := by
    rw [run_eq_tickHit hrun hsel]
    exact tickHit_campaigns mode r t job
  constructor
  · unfold hitsOf
    rw [hc, sum_hits_map_bump_self,
      countP_id_eq_one hnd (selectedJob_mem hsel).1]
  · intro cid2 hne
    unfold hitsOf
    rw [hc, filter_map_bump_other _ _ _ hne]

/-- Every catalog entry has a nonempty domain set. -/
theorem engines_domains_ne_nil : ∀ e ∈ engines, e.domains ≠ [] := by decide

/-- The resolved engine is always a catalog entry. -/
theorem resolveEngine_mem (n : String) : resolveEngine n ∈ engines := by
  unfold resolveEngine
  cases hf : engines.find? (fun e => e.name == n) with
  | none => simp [engines]
  | some e =>
    simp only [Option.getD_some]
    exact List.mem_of_find?_eq_some hf

/-- Every point the scroll loop pushes is strictly below `pageHeight` and
strictly above `-50` (the worst back-scroll from the lowest reachable
position). -/
theorem scrollAux_bounds (f : ℕ → ℚ) (hf : ∀ n, 0 ≤ f n ∧ f n < 1)
    (ph : ℚ) (k : ℕ) (current : ℚ) :
    0 ≤ current → ∀ x ∈ scrollAux f hf ph k current, x < ph ∧ -50 < x := by
  induction k, current using scrollAux.induct f hf ph with
  | case1 k current hlt c hc hprob ih =>
    intro hcur x hx
    rw [scrollAux.eq_def] at hx
    simp only [dif_pos hlt, dif_pos hc, if_pos hprob] at hx
    have hf0 := (hf k).1
    have hc' : current + (f k * 300 + 100) < ph := hc
    have hc100 : current + 100 ≤ current + (f k * 300 + 100) := by nlinarith
    rcases List.mem_cons.mp hx with rfl | hx2
    · exact ⟨hc', by nlinarith⟩
    rcases List.mem_cons.mp hx2 with rfl | hx3
    · have h2 := hf (k + 2)
      exact ⟨by nlinarith [h2.1], by nlinarith [h2.2]⟩
    · exact ih (show (0:ℚ) ≤ current + (f k * 300 + 100) by nlinarith) x hx3
  | case2 k current hlt c hc hprob ih =>
    intro hcur x hx
    rw [scrollAux.eq_def] at hx
    simp only [dif_pos hlt, dif_pos hc, if_neg hprob] at hx
    have hf0 := (hf k).1
    have hc' : current + (f k * 300 + 100) < ph := hc
    have hc100 : current + 100 ≤ current + (f k * 300 + 100) := by nlinarith
    rcases List.mem_cons.mp hx with rfl | hx2
    · exact ⟨hc', by nlinarith⟩
    · exact ih (show (0:ℚ) ≤ current + (f k * 300 + 100) by nlinarith) x hx2
  | case3 k current hlt c hc =>
    intro hcur x hx
    rw [scrollAux.eq_def] at hx
    simp only [dif_pos hlt, dif_neg hc] at hx
    exact absurd hx (List.not_mem_nil x)
  | case4 k current hlt =>
    intro hcur x hx
    rw [scrollAux.eq_def] at hx
    simp only [dif_neg hlt] at hx
    exact absurd hx (List.not_mem_nil x)

/-! ## Claim theorems -/

/-- C6: the base inter-hit delay is a function of the EvasionMode alone:
Standard is exactly 1500ms, Stealth is 2000ms plus a uniform draw in
`[0, 1000)` (hence in `[2000, 3000)`), Ghost is 2500ms plus a uniform draw
in `[0, 2000)` (hence in `[2500, 4500)`). -/
theorem wafDelay_base_by_mode (r : ℚ) (h0 : 0 ≤ r) (h1 : r < 1) :
    getWafDelay WAFMode.Standard r = 1500 ∧
    getWafDelay WAFMode.Stealth r = 2000 + r * 1000 ∧
    2000 ≤ getWafDelay WAFMode.Stealth r ∧
    getWafDelay WAFMode.Stealth r < 3000 ∧
    getWafDelay WAFMode.Ghost r = 2500 + r * 2000 ∧
    2500 ≤ getWafDelay WAFMode.Ghost r ∧
    getWafDelay WAFMode.Ghost r < 4500 := by
  have hs : getWafDelay WAFMode.Stealth r = 2000 + r * 1000 := rfl
  have hg : getWafDelay WAFMode.Ghost r = 2500 + r * 2000 := rfl
  refine ⟨rfl, hs, ?_, ?_, hg, ?_, ?_⟩ <;> simp only [hs, hg] <;> nlinarith

/-- Witness for C6 at the concrete draw 1/2. -/
theorem wafDelay_base_by_mode_witness :
    getWafDelay WAFMode.Stealth (1 / 2) = 2000 + (1 / 2 : ℚ) * 1000 :=
  (wafDelay_base_by_mode (1 / 2) (by norm_num) (by norm_num)).2.1

/-- C7: for every input string, `getGASourceMedium` returns the pair whose
source is that string and whose medium is the literal `organic`. -/
theorem gaSourceMedium_organic (x : String) :
    (getGASourceMedium x).source = x ∧ (getGASourceMedium x).medium = "organic" :=
  ⟨rfl, rfl⟩

/-- C5: a tick fired while running with an empty active set schedules the
next tick after exactly 2000ms and mutates nothing else: campaigns, logs,
analytics events and the current job are untouched, the engine stays
running, and the callback does not throw. -/
theorem idle_tick_reschedules_2000 (mode : WAFMode) (r : Rand)
    (s : EngineState) (hrun : s.running = true) (hempty : activeOf s = []) :
    runTrafficEngine mode r s = ⟨{ s with timer := some 2000 }, false⟩ ∧
    (runTrafficEngine mode r s).state.campaigns = s.campaigns ∧
    (runTrafficEngine mode r s).state.logs = s.logs ∧
    (runTrafficEngine mode r s).state.ga4Events = s.ga4Events ∧
    (runTrafficEngine mode r s).state.currentJob = s.currentJob ∧
    (runTrafficEngine mode r s).state.running = true ∧
    (runTrafficEngine mode r s).state.timer = some 2000 := by
  have h : runTrafficEngine mode r s = ⟨{ s with timer := some 2000 }, false⟩ := by
    unfold runTrafficEngine
    rw [hrun, hempty]
    simp
  rw [h]
  exact ⟨rfl, rfl, rfl, rfl, rfl, hrun, rfl⟩

/-- Witness for C5: the concrete idle state (one paused campaign). -/
theorem idle_tick_reschedules_2000_witness :
    runTrafficEngine WAFMode.Standard rZero idleState =
      ⟨{ idleState with timer := some 2000 }, false⟩ :=
  (idle_tick_reschedules_2000 WAFMode.Standard rZero idleState rfl (by decide)).1

/-- C4: after a stop command (which clears the pending timer and the
current job), a tick that still fires observes Stopped as its very first
check and changes nothing: the result is the stopped state itself with no
throw, so campaigns, logs and analytics are untouched, and no future tick
is scheduled. -/
theorem stop_cancels_timer_and_guards_tick (mode : WAFMode) (r : Rand)
    (s : EngineState) :
    runTrafficEngine mode r (stopEngine s) = ⟨stopEngine s, false⟩ ∧
    (stopEngine s).timer = none ∧
    (stopEngine s).running = false ∧
    (runTrafficEngine mode r (stopEngine s)).state.campaigns = s.campaigns ∧
    (runTrafficEngine mode r (stopEngine s)).state.logs = s.logs ∧
    (runTrafficEngine mode r (stopEngine s)).state.ga4Events = s.ga4Events ∧
    (runTrafficEngine mode r (stopEngine s)).state.timer = none := by
  have h : runTrafficEngine mode r (stopEngine s) = ⟨stopEngine s, false⟩ := by
    unfold runTrafficEngine stopEngine
    simp
  rw [h]
  exact ⟨rfl, rfl, rfl, rfl, rfl, rfl, rfl⟩

/-- C1 counterexample: a tick on a campaign whose `trafficPattern` is
`Pulse`, under Standard mode, completes without throwing and schedules the
next tick at exactly 1500ms — the unmodified base delay — which is neither
a burst delay in 400–500ms nor the base delay multiplied by 2.5. -/
theorem pulse_claim_counterexample :
    selectedJob rZero pulseState = some pulseCampaign ∧
    pulseCampaign.trafficPattern = some "Pulse" ∧
    (runTrafficEngine WAFMode.Standard rZero pulseState).threw = false ∧
    (runTrafficEngine WAFMode.Standard rZero pulseState).state.timer =
      some 1500 ∧
    getWafDelay WAFMode.Standard rZero.rDelay = 1500 ∧
    ¬ ((400 ≤ (1500 : ℚ) ∧ (1500 : ℚ) ≤ 500) ∨
        (1500 : ℚ) = getWafDelay WAFMode.Standard rZero.rDelay * (5 / 2)) := by
  refine ⟨?_, rfl, ?_, ?_, rfl, ?_⟩
  · simp [selectedJob, activeOf, pulseState, pulseCampaign, rZero, jsFloorIdx_zero]
  · simp [runTrafficEngine, tickHit, selectedJob, activeOf, pulseState,
      pulseCampaign, rZero, jsFloorIdx_zero, jsURLHostname, findSchemeSplit]
  · simp [runTrafficEngine, tickHit, selectedJob, activeOf, pulseState,
      pulseCampaign, rZero, jsFloorIdx_zero, jsURLHostname, findSchemeSplit,
      getWafDelay]
  · have hbase : getWafDelay WAFMode.Standard rZero.rDelay = 1500 := rfl
    rw [hbase]
    norm_num

/-- C1 (amended): the traffic pattern never modifies the delay.  On every
tick that completes a hit without throwing — whatever the selected
campaign's `trafficPattern`, Pulse included — the scheduled delay is
exactly the EvasionMode base delay `getWafDelay(wafMode)`, with no burst
branch and no 2.5 multiplier. -/
theorem pattern_never_modifies_delay (mode : WAFMode) (r : Rand)
    (s : EngineState) (job : Campaign) (hrun : s.running = true)
    (hsel : selectedJob r s = some job)
    (hok : (runTrafficEngine mode r s).threw = false) :
    (runTrafficEngine mode r s).state.timer = some (getWafDelay mode r.rDelay) := by
  rw [run_eq_tickHit hrun hsel] at hok ⊢
  exact tickHit_timer_of_ok hok

/-- Witness for the amended C1 at the concrete Pulse campaign. -/
theorem pattern_never_modifies_delay_witness :
    (runTrafficEngine WAFMode.Standard rZero pulseState).state.timer =
      some (getWafDelay WAFMode.Standard rZero.rDelay) :=
  pattern_never_modifies_delay WAFMode.Standard rZero pulseState pulseCampaign
    rfl
    (by simp [selectedJob, activeOf, pulseState, pulseCampaign, rZero,
      jsFloorIdx_zero])
    (by simp [runTrafficEngine, tickHit, selectedJob, activeOf, pulseState,
      pulseCampaign, rZero, jsFloorIdx_zero, jsURLHostname, findSchemeSplit])

/-- C2 fails on the code: with one active campaign whose urls list is
empty, the tick selects that campaign rather than skipping it, increments
its hit counter, and then throws while building the log entry
(`new URL(undefined)`), so no log entry is appended and — the callback
aborting before the re-arm — no next tick is scheduled. -/
theorem empty_urls_selected_and_throws :
    selectedJob rZero emptyUrlsState = some emptyUrlsCampaign ∧
    emptyUrlsCampaign.status = CStatus.active ∧
    emptyUrlsCampaign.urls = [] ∧
    (runTrafficEngine WAFMode.Standard rZero emptyUrlsState).threw = true ∧
    (runTrafficEngine WAFMode.Standard rZero emptyUrlsState).state.campaigns.map
      (fun c => c.hits) = [1] ∧
    (runTrafficEngine WAFMode.Standard rZero emptyUrlsState).state.logs =
      emptyUrlsState.logs ∧
    (runTrafficEngine WAFMode.Standard rZero emptyUrlsState).state.timer = none := by
  refine ⟨?_, rfl, rfl, ?_, ?_, ?_, ?_⟩ <;>
    simp [runTrafficEngine, tickHit, selectedJob, activeOf, emptyUrlsState,
      emptyUrlsCampaign, rZero, jsFloorIdx_zero, bumpHits]

/-- C3: every tick attributing a hit to the campaign with id `cid` (while
ids are unique) increments that campaign's hit counter by exactly 1 and
leaves every other campaign's counter unchanged; hence after `N` such
ticks the counter equals its prior value plus `N` exactly. -/
theorem hits_increment_exact (mode : WAFMode) (cid : String) (N : ℕ)
    (s u : EngineState) (hnd : (s.campaigns.map (fun c => c.id)).Nodup)
    (hseq : AttribSeq mode cid s N u) :
    hitsOf cid u = hitsOf cid s + N ∧
    ∀ cid2, cid2 ≠ cid → hitsOf cid2 u = hitsOf cid2 s := by
  induction hseq with
  | zero => exact ⟨rfl, fun _ _ => rfl⟩
  | succ n t r job hprev hrun hsel hid ih =>
    have hndt : (t.campaigns.map (fun c => c.id)).Nodup := by
      rw [attribSeq_ids hprev]
      exact hnd
    have hstep := @step_hitsOf mode r t job hrun hsel hndt
    subst hid
    constructor
    · rw [hstep.1, ih.1]
      omega
    · intro cid2 hne
      rw [hstep.2 cid2 hne, ih.2 cid2 hne]

/-- Witness for C3: one attributed tick on the concrete GA4 campaign. -/
theorem hits_increment_exact_witness :
    hitsOf "camp-9" (runTrafficEngine WAFMode.Standard rZero ga4State).state =
      hitsOf "camp-9" ga4State + 1 :=
  have hsel : selectedJob rZero ga4State = some ga4Campaign := by
    simp [selectedJob, activeOf, ga4State, ga4Campaign, rZero, jsFloorIdx_zero]
  have hseq : AttribSeq WAFMode.Standard "camp-9" ga4State 1
      (runTrafficEngine WAFMode.Standard rZero ga4State).state :=
    AttribSeq.succ 0 ga4State rZero ga4Campaign AttribSeq.zero rfl hsel rfl
  (hits_increment_exact WAFMode.Standard "camp-9" 1 ga4State
    (runTrafficEngine WAFMode.Standard rZero ga4State).state
    (by simp [ga4State, ga4Campaign]) hseq).1

/-- C10: a tick while running either leaves the simulated analytics buffer
unchanged, or — only when the selected campaign has a non-null ga4Id —
prepends one event to at most the 99 most recent prior events; in either
case the buffer never grows past 100 entries. -/
theorem ga4_buffer_bounded (mode : WAFMode) (r : Rand) (s : EngineState)
    (hrun : s.running = true) :
    ((runTrafficEngine mode r s).state.ga4Events = s.ga4Events ∨
      ∃ job ev, selectedJob r s = some job ∧ job.ga4Id ≠ none ∧
        (runTrafficEngine mode r s).state.ga4Events = ev :: s.ga4Events.take 99) ∧
    (s.ga4Events.length ≤ 100 →
      (runTrafficEngine mode r s).state.ga4Events.length ≤ 100) := by
  have hmain : (runTrafficEngine mode r s).state.ga4Events = s.ga4Events ∨
      ∃ job ev, selectedJob r s = some job ∧ job.ga4Id ≠ none ∧
        (runTrafficEngine mode r s).state.ga4Events = ev :: s.ga4Events.take 99 := by
    cases hsel : selectedJob r s with
    | none =>
      left
      by_cases hlen0 : (activeOf s).length = 0
      · unfold runTrafficEngine
        rw [hrun]
        simp [hlen0]
      · unfold runTrafficEngine
        rw [hrun]
        simp [hlen0, hsel]
    | some job =>
      rw [run_eq_tickHit hrun hsel]
      rcases tickHit_ga4Events mode r s job with h | ⟨hga, ev, hev⟩
      · left; exact h
      · right; exact ⟨job, ev, rfl, hga, hev⟩
  refine ⟨hmain, ?_⟩
  intro hlen
  rcases hmain with h | ⟨job, ev, _, _, hev⟩
  · rw [h]; exact hlen
  · rw [hev]
    simp only [List.length_cons, List.length_take]
    omega

/-- Witness for C10 at the concrete GA4 state. -/
theorem ga4_buffer_bounded_witness :
    (runTrafficEngine WAFMode.Standard rZero ga4State).state.ga4Events.length ≤ 100 :=
  (ga4_buffer_bounded WAFMode.Standard rZero ga4State rfl).2 (by simp [ga4State])

/-- C8: for every keyword and engine name, the generated referrer is
`https://www.<domain>/search?<queryParam>=<keyword>[&extra]`, where the
domain comes from the resolved engine's domain set, the query parameter is
the resolved engine's, the keyword travels form-encoded in that parameter,
the extra block is present exactly for the google entry, and a name
matching no catalog entry resolves to the google entry. -/
theorem organicReferrer_shape (kw name : String) (r : ℚ)
    (h0 : 0 ≤ r) (h1 : r < 1) :
    ∃ d, d ∈ (resolveEngine name).domains ∧
      generateOrganicReferrer kw name r =
        "https://www." ++ d ++ "/search?" ++ (resolveEngine name).queryParam ++
          "=" ++ formEncode kw ++
          (if (resolveEngine name).name == "google" then
            "&oq=" ++ formEncode kw ++ "&sourceid=chrome&ie=UTF-8"
          else "") ∧
      ((∀ e ∈ engines, e.name ≠ name) → resolveEngine name = googleEngine) := by
  have hmem : resolveEngine name ∈ engines := resolveEngine_mem name
  have hne : (resolveEngine name).domains ≠ [] := engines_domains_ne_nil _ hmem
  have hlen : 0 < (resolveEngine name).domains.length := List.length_pos.mpr hne
  have hidx : jsFloorIdx r (resolveEngine name).domains.length <
      (resolveEngine name).domains.length := jsFloorIdx_lt h1 hlen
  have hd : (resolveEngine name).domains.get?
      (jsFloorIdx r (resolveEngine name).domains.length) =
      some ((resolveEngine name).domains.get ⟨_, hidx⟩) := List.get?_eq_get hidx
  refine ⟨(resolveEngine name).domains.get ⟨_, hidx⟩, List.get?_mem hd, ?_, ?_⟩
  · simp only [generateOrganicReferrer, hd, Option.getD_some]
    by_cases hg : ((resolveEngine name).name == "google") = true
    · simp only [hg, if_true, String.append_assoc]
    · simp only [hg, Bool.false_eq_true, if_false, String.append_empty,
        String.append_assoc]
  · intro hall
    unfold resolveEngine
    rw [List.find?_eq_none.mpr (fun e he => by simpa using hall e he)]
    rfl

/-- Witness for C8: unknown engine name, keyword with a space, draw 0. -/
theorem organicReferrer_shape_witness :
    ∃ d, d ∈ (resolveEngine "nosuch").domains ∧
      generateOrganicReferrer "best shoes" "nosuch" 0 =
        "https://www." ++ d ++ "/search?" ++ (resolveEngine "nosuch").queryParam ++
          "=" ++ formEncode "best shoes" ++
          (if (resolveEngine "nosuch").name == "google" then
            "&oq=" ++ formEncode "best shoes" ++ "&sourceid=chrome&ie=UTF-8"
          else "") ∧
      ((∀ e ∈ engines, e.name ≠ "nosuch") → resolveEngine "nosuch" = googleEngine) :=
  organicReferrer_shape "best shoes" "nosuch" 0 (by norm_num) (by norm_num)

/-- C9 counterexample: with pageHeight 150 and the draw stream `cexStream`
(first step of exactly 100, back-scroll chance hit, back-scroll distance
140), the scroll pattern is `[0, 100, -40, 150]`, whose third element is
negative — the claimed non-negativity of every element fails. -/
theorem scrollPattern_negative_counterexample :
    generateScrollPattern cexStream cexStream_valid 150 = [0, 100, -40, 150] ∧
    ¬ (∀ x ∈ generateScrollPattern cexStream cexStream_valid 150, 0 ≤ x) := by
  have h1 : scrollAux cexStream cexStream_valid 150 3 100 = [] := by
    rw [scrollAux.eq_def]
    norm_num [cexStream]
  have h0 : scrollAux cexStream cexStream_valid 150 0 0 = [100, -40] := by
    rw [scrollAux.eq_def]
    norm_num [cexStream, h1]
  have h : generateScrollPattern cexStream cexStream_valid 150 = [0, 100, -40, 150] := by
    unfold generateScrollPattern
    rw [h0]
    rfl
  refine ⟨h, ?_⟩
  rw [h]
  intro hall
  have := hall (-40) (by simp)
  norm_num at this

/-- C9 (amended): for every non-negative pageHeight and every draw stream,
the scroll pattern starts at 0, ends at exactly pageHeight, never exceeds
pageHeight, and every element is strictly greater than −50 (elements may
be negative: a back-scroll can undershoot 0 by up to 50px). -/
theorem scrollPattern_bounds (f : ℕ → ℚ) (hf : ∀ n, 0 ≤ f n ∧ f n < 1)
    (ph : ℚ) (hph : 0 ≤ ph) :
    (generateScrollPattern f hf ph).head? = some 0 ∧
    (generateScrollPattern f hf ph).getLast? = some ph ∧
    ∀ x ∈ generateScrollPattern f hf ph, x ≤ ph ∧ -50 < x := by
  refine ⟨rfl, ?_, ?_⟩
  · unfold generateScrollPattern
    rw [← List.cons_append, List.getLast?_concat]
  · intro x hx
    unfold generateScrollPattern at hx
    rcases List.mem_cons.mp hx with rfl | hx2
    · exact ⟨hph, by norm_num⟩
    rcases List.mem_append.mp hx2 with hx3 | hx4
    · have hb := scrollAux_bounds f hf ph 0 0 le_rfl x hx3
      exact ⟨hb.1.le, hb.2⟩
    · rw [List.mem_singleton.mp hx4]
      exact ⟨le_rfl, by nlinarith⟩

/-- Witness for the amended C9 at the constant-zero stream, pageHeight
150. -/
theorem scrollPattern_bounds_witness :
    (generateScrollPattern zeroStream zeroStream_valid 150).head? = some 0 ∧
    (generateScrollPattern zeroStream zeroStream_valid 150).getLast? = some 150 ∧
    ∀ x ∈ generateScrollPattern zeroStream zeroStream_valid 150,
      x ≤ 150 ∧ -50 < x :=
  scrollPattern_bounds zeroStream zeroStream_valid 150 (by norm_num)

end TrafficFlow
